import Mathlib

/-!
Shallow embedding of the payroll-adjustment subsystem of the
employee-management-system repository.

Sources embedded here:
* `src/src/app/api/payroll/adjustments/[id]/route.ts` — GET/PATCH/DELETE for a
  single payroll adjustment plus its local `recalculatePayrollNetSalary`
  (raw-SQL variant: selects adjustments with `approved = true AND "deletedAt"
  IS NULL`, then updates the payroll row in SQL).
* the adjustments collection route (POST `createAdjustment`) with its own local
  `recalculatePayrollNetSalary` (Prisma variant: selects adjustments with
  `status: "APPROVED"`, computes in JS, silently returns when the payroll row
  is missing).
* the payroll `[id]` PATCH route (`directUpdatePayroll` in the specification's
  vocabulary), which recomputes `netSalary` from the patched/stored
  baseSalary/allowances/bonuses/deductions/tax.

Monetary values are JS numbers in the source; they are modelled as exact
rationals (`Rat`).  Dates and timestamp bookkeeping columns (`createdAt`,
`updatedAt`, `adjustmentDate`, pay-period bounds) are omitted: no claim
mentions them and no computation reads them.  The repository's
`prisma/schema.prisma` is not part of the sources; the adjustment row is
modelled with the fields the embedded code actually reads or writes
(`approved`, `deletedAt` from the raw SQL; `status` with its migration
default `'PENDING'` from the migration file and the create route's filter).
-/

namespace EMS

/-- The six adjustment types of `ADJUSTMENT_TYPES` / prisma `AdjustmentType`. -/
inductive AdjustmentType where
  | BONUS
  | COMMISSION
  | DEDUCTION
  | ALLOWANCE
  | OVERTIME
  | OTHER
deriving DecidableEq, Repr

/-- The string name of an adjustment type, as stored in the database and
compared against string literals by the TypeScript code. -/
def AdjustmentType.name : AdjustmentType → String
  | .BONUS => "BONUS"
  | .COMMISSION => "COMMISSION"
  | .DEDUCTION => "DEDUCTION"
  | .ALLOWANCE => "ALLOWANCE"
  | .OVERTIME => "OVERTIME"
  | .OTHER => "OTHER"

/-- `Object.values(AdjustmentType).includes(type)` / membership in
`ADJUSTMENT_TYPES`, returning the parsed enum value. -/
def parseAdjustmentType (s : String) : Option AdjustmentType :=
  if s == "BONUS" then some .BONUS
  else if s == "COMMISSION" then some .COMMISSION
  else if s == "DEDUCTION" then some .DEDUCTION
  else if s == "ALLOWANCE" then some .ALLOWANCE
  else if s == "OVERTIME" then some .OVERTIME
  else if s == "OTHER" then some .OTHER
  else none

/-- Payroll status enum from the initial migration
(`DRAFT`,`PROCESSING`,`COMPLETED`,`PAID`,`CANCELLED`). -/
inductive PayrollStatus where
  | DRAFT
  | PROCESSING
  | COMPLETED
  | PAID
  | CANCELLED
deriving DecidableEq, Repr

/-- `Object.values(PayrollStatus).includes(status)` with the parsed value. -/
def parsePayrollStatus (s : String) : Option PayrollStatus :=
  if s == "DRAFT" then some .DRAFT
  else if s == "PROCESSING" then some .PROCESSING
  else if s == "COMPLETED" then some .COMPLETED
  else if s == "PAID" then some .PAID
  else if s == "CANCELLED" then some .CANCELLED
  else none

/-- A `PayrollAdjustment` row. -/
structure PayrollAdjustment where
  id : Nat
  payrollId : Nat
  type : AdjustmentType
  description : Option String
  amount : Rat
  approved : Bool
  approvedBy : Option Nat
  status : String
  deletedAt : Option Nat
deriving DecidableEq, Repr

/-- A `Payroll` row (timestamp and pay-period columns omitted). -/
structure Payroll where
  id : Nat
  employeeId : Nat
  baseSalary : Rat
  allowances : Rat
  bonuses : Rat
  deductions : Rat
  tax : Rat
  netSalary : Rat
  status : PayrollStatus
  notes : Option String
deriving DecidableEq, Repr

/-- The persistent store: the two tables touched by the embedded routes, plus
the auto-increment counter for adjustment ids. -/
structure DB where
  payrolls : List Payroll
  adjustments : List PayrollAdjustment
  nextAdjustmentId : Nat
deriving DecidableEq, Repr

/-- Accumulator of the `reduce` in both `recalculatePayrollNetSalary`
implementations. -/
structure AdjustmentTotals where
  additions : Rat
  deductions : Rat
deriving DecidableEq, Repr

/-- The `reduce` shared verbatim by both recalculation implementations:
`["BONUS","COMMISSION","ALLOWANCE"].includes(adj.type)` routes the amount to
`additions`, everything else to `deductions`. -/
def adjustmentTotals (adjs : List PayrollAdjustment) : AdjustmentTotals :=
  adjs.foldl
    (fun acc adj =>
      if ["BONUS", "COMMISSION", "ALLOWANCE"].contains adj.type.name then
        { acc with additions := acc.additions + adj.amount }
      else
        { acc with deductions := acc.deductions + adj.amount })
    { additions := 0, deductions := 0 }

/-- Selection predicate of the raw-SQL recalculation in
`payroll/adjustments/[id]/route.ts`:
`WHERE "payrollId" = ${payrollId} AND approved = true AND "deletedAt" IS NULL`. -/
def selApprovedLive (payrollId : Nat) (a : PayrollAdjustment) : Bool :=
  a.payrollId == payrollId && a.approved && a.deletedAt == none

/-- Selection predicate of the Prisma recalculation in the create route:
`where: { payrollId, status: "APPROVED" }`. -/
def selStatusApproved (payrollId : Nat) (a : PayrollAdjustment) : Bool :=
  a.payrollId == payrollId && a.status == "APPROVED"

/-- `recalculatePayrollNetSalary` of `payroll/adjustments/[id]/route.ts`
(invoked by updateAdjustment and deleteAdjustment): reads the approved,
non-soft-deleted adjustments of the payroll, then runs the SQL
`UPDATE "Payroll" SET "netSalary" = "baseSalary" + additions - "tax" -
deductions, "allowances" = additions, "deductions" = deductions WHERE id =
payrollId` (each matching row's own `baseSalary`/`tax` are read by the SQL). -/
def recalculatePayrollNetSalary (db : DB) (payrollId : Nat) : DB :=
  let adjs := db.adjustments.filter (selApprovedLive payrollId)
  let totals := adjustmentTotals adjs
  { db with
    payrolls := db.payrolls.map fun p =>
      if p.id == payrollId then
        { p with
          netSalary := p.baseSalary + totals.additions - p.tax - totals.deductions,
          allowances := totals.additions,
          deductions := totals.deductions }
      else p }

/-- `recalculatePayrollNetSalary` of the adjustments create route (invoked by
createAdjustment): reads adjustments with `status: "APPROVED"`, fetches the
payroll row (`if (!payroll) return;` on a missing row), computes
`netSalary = payroll.baseSalary + additions - payroll.tax - deductions` in JS
and writes the three derived fields back. -/
def recalculatePayrollNetSalaryOnCreate (db : DB) (payrollId : Nat) : DB :=
  let adjs := db.adjustments.filter (selStatusApproved payrollId)
  let totals := adjustmentTotals adjs
  match db.payrolls.find? (fun p => p.id == payrollId) with
  | none => db
  | some payroll =>
    let net := payroll.baseSalary + totals.additions - payroll.tax - totals.deductions
    { db with
      payrolls := db.payrolls.map fun p =>
        if p.id == payrollId then
          { p with
            netSalary := net,
            allowances := totals.additions,
            deductions := totals.deductions }
        else p }

/-- The error responses a route can produce (`errorResponses.badRequest`,
`errorResponses.notFound`, `errorResponses.serverError`). -/
inductive ApiError where
  | badRequest (msg : String)
  | notFound (msg : String)
  | serverError (msg : String)
deriving DecidableEq, Repr

/-- Request body of the createAdjustment POST route. `none` models a JSON
field that is absent (`undefined`). -/
structure CreateAdjustmentInput where
  payrollId : Option Nat
  type : Option String
  amount : Option Rat
  description : Option String
  approved : Option Bool
  approvedBy : Option Nat
deriving DecidableEq, Repr

/-- The row object the POST route passes to `prisma.payrollAdjustment.create`
for a validated request (payroll id `pid`, parsed type `t`, parsed amount
`q`): `...(approvedBy && { approvedBy })` only sets `approvedBy` when truthy,
`approved = false` is the destructuring default, and the row takes the
migration's `status` default `'PENDING'` and a NULL `deletedAt`. -/
def newAdjustment (db : DB) (input : CreateAdjustmentInput) (pid : Nat)
    (t : AdjustmentType) (q : Rat) : PayrollAdjustment :=
  { id := db.nextAdjustmentId,
    payrollId := pid,
    type := t,
    amount := q,
    description := input.description,
    approved := input.approved.getD false,
    approvedBy := if input.approvedBy.getD 0 == 0 then none else input.approvedBy,
    status := "PENDING",
    deletedAt := none }

/-- The store after `prisma.payrollAdjustment.create` commits a new row. -/
def dbAfterCreate (db : DB) (a : PayrollAdjustment) : DB :=
  { db with
    adjustments := db.adjustments ++ [a],
    nextAdjustmentId := db.nextAdjustmentId + 1 }

/-- The createAdjustment POST route.  `recalcFails = true` models an
infrastructure failure thrown by the store write inside the recalculation
call: the route's `catch` block then returns
`errorResponses.serverError("Failed to create payroll adjustment")` without
deleting the adjustment that `prisma.payrollAdjustment.create` had already
committed (the two calls are not wrapped in a common transaction).
`recalcFails = false` is the normal path.

Faithful JS details: the guard is
`if (!payrollId || !type || amount === undefined)`, so `payrollId = 0` and
`type = ""` are rejected as falsy while a negative or zero `amount` passes. -/
def createAdjustmentRoute (recalcFails : Bool) (db : DB)
    (input : CreateAdjustmentInput) : Except ApiError PayrollAdjustment × DB :=
  match input.payrollId, input.type, input.amount with
  | some pid, some ty, some amt =>
    if pid == 0 || ty == "" then
      (.error (.badRequest "Payroll ID, type, and amount are required"), db)
    else
      match parseAdjustmentType ty with
      | none => (.error (.badRequest "Invalid adjustment type"), db)
      | some t =>
        match db.payrolls.find? (fun p => p.id == pid) with
        | none => (.error (.notFound "Payroll record not found"), db)
        | some _ =>
          let adjustment := newAdjustment db input pid t amt
          let db1 := dbAfterCreate db adjustment
          if recalcFails then
            (.error (.serverError "Failed to create payroll adjustment"), db1)
          else
            (.ok adjustment, recalculatePayrollNetSalaryOnCreate db1 pid)
  | _, _, _ =>
    (.error (.badRequest "Payroll ID, type, and amount are required"), db)

/-- Request body of the adjustment PATCH route.  Outer `none` models an
absent field; `description` distinguishes absent (`none`) from explicit
`null` (`some none`). -/
structure UpdateAdjustmentPatch where
  type : Option String
  amount : Option Rat
  description : Option (Option String)
  approved : Option Bool
  approvedBy : Option Nat
deriving DecidableEq, Repr

/-- The field update of `prisma.payrollAdjustment.update` in the PATCH route:
`...(type && { type })` (truthy check; validity was checked before the call),
`...(amount !== undefined && { amount })`, etc. -/
def applyAdjustmentPatch (patch : UpdateAdjustmentPatch)
    (a : PayrollAdjustment) : PayrollAdjustment :=
  { a with
    type :=
      match patch.type with
      | some ty => if ty == "" then a.type else (parseAdjustmentType ty).getD a.type
      | none => a.type,
    amount := patch.amount.getD a.amount,
    description := patch.description.getD a.description,
    approved := patch.approved.getD a.approved,
    approvedBy :=
      match patch.approvedBy with
      | some n => some n
      | none => a.approvedBy }

/-- The adjustment PATCH route (updateAdjustment): 404 when the adjustment is
missing, 400 when a truthy `type` is not in `ADJUSTMENT_TYPES`, otherwise
apply the patch and — only `if (amount !== undefined || approved !==
undefined)` — recalculate the parent payroll with the raw-SQL
recalculation. -/
def updateAdjustmentRoute (db : DB) (adjId : Nat)
    (patch : UpdateAdjustmentPatch) : Except ApiError PayrollAdjustment × DB :=
  match db.adjustments.find? (fun a => a.id == adjId) with
  | none => (.error (.notFound "Payroll adjustment not found"), db)
  | some existing =>
    if patch.type.getD "" != "" && parseAdjustmentType (patch.type.getD "") == none then
      (.error (.badRequest "Invalid adjustment type"), db)
    else
      let db1 : DB :=
        { db with
          adjustments := db.adjustments.map fun a =>
            if a.id == adjId then applyAdjustmentPatch patch a else a }
      let db2 :=
        if patch.amount != none || patch.approved != none then
          recalculatePayrollNetSalary db1 existing.payrollId
        else db1
      (.ok (applyAdjustmentPatch patch existing), db2)

/-- The adjustment DELETE route (deleteAdjustment): 404 when missing,
otherwise hard-delete the row and unconditionally recalculate the parent
payroll with the raw-SQL recalculation. -/
def deleteAdjustmentRoute (db : DB) (adjId : Nat) : Except ApiError Unit × DB :=
  match db.adjustments.find? (fun a => a.id == adjId) with
  | none => (.error (.notFound "Payroll adjustment not found"), db)
  | some existing =>
    let db1 : DB :=
      { db with adjustments := db.adjustments.filter fun a => !(a.id == adjId) }
    (.ok (), recalculatePayrollNetSalary db1 existing.payrollId)

/-- Request body of the payroll `[id]` PATCH route (directUpdatePayroll). -/
structure UpdatePayrollPatch where
  baseSalary : Option Rat
  allowances : Option Rat
  bonuses : Option Rat
  deductions : Option Rat
  tax : Option Rat
  status : Option String
  notes : Option String
deriving DecidableEq, Repr

/-- The field update passed to `prisma.payroll.update` by the payroll `[id]`
PATCH route: present fields are written (`status` only when truthy, via the
`...(status && { status })` spread), and `net` is the netSalary computed by
the route. -/
def patchPayrollRow (patch : UpdatePayrollPatch) (net : Rat) (p : Payroll) : Payroll :=
  { p with
    baseSalary := patch.baseSalary.getD p.baseSalary,
    allowances := patch.allowances.getD p.allowances,
    bonuses := patch.bonuses.getD p.bonuses,
    deductions := patch.deductions.getD p.deductions,
    tax := patch.tax.getD p.tax,
    status :=
      match patch.status with
      | some s => if s == "" then p.status else (parsePayrollStatus s).getD p.status
      | none => p.status,
    notes :=
      match patch.notes with
      | some s => some s
      | none => p.notes,
    netSalary := net }

/-- The payroll `[id]` PATCH route (the specification's directUpdatePayroll):
404 when the record is missing, 400 for a truthy unrecognized `status`;
when any of baseSalary/allowances/bonuses/deductions/tax is present the new
`netSalary` is `(baseSalary ?? cur) + (allowances ?? cur) + (bonuses ?? cur)
- (deductions ?? cur) - (tax ?? cur)` (adjustments are never read), otherwise
the stored `netSalary` is kept; then the present fields and `netSalary` are
written. -/
def updatePayrollRoute (db : DB) (payrollId : Nat)
    (patch : UpdatePayrollPatch) : Except ApiError Payroll × DB :=
  match db.payrolls.find? (fun p => p.id == payrollId) with
  | none => (.error (.notFound "Payroll record not found"), db)
  | some existing =>
    if patch.status.getD "" != "" && parsePayrollStatus (patch.status.getD "") == none then
      (.error (.badRequest "Invalid status"), db)
    else
      let net : Rat :=
        if patch.baseSalary != none || patch.allowances != none ||
            patch.bonuses != none || patch.deductions != none ||
            patch.tax != none then
          patch.baseSalary.getD existing.baseSalary +
            patch.allowances.getD existing.allowances +
            patch.bonuses.getD existing.bonuses -
            patch.deductions.getD existing.deductions -
            patch.tax.getD existing.tax
        else existing.netSalary
      let applyPatch : Payroll → Payroll := patchPayrollRow patch net
      (.ok (applyPatch existing),
        { db with
          payrolls := db.payrolls.map fun p =>
            if p.id == payrollId then applyPatch p else p })

/-! ### Specification-side definitions

These render the claims' vocabulary ("additive type", "sum of amounts of the
record's approved adjustments", the net-salary invariant) independently of the
code's fold/filter shape, so theorems compare the code against them. -/

/-- The claims' additive types: BONUS, COMMISSION, ALLOWANCE. -/
def specAdditiveType (t : AdjustmentType) : Bool :=
  t == .BONUS || t == .COMMISSION || t == .ALLOWANCE

/-- Sum of the amounts of the additive-type adjustments of a list. -/
def additiveSum (adjs : List PayrollAdjustment) : Rat :=
  ((adjs.filter fun a => specAdditiveType a.type).map fun a => a.amount).sum

/-- Sum of the amounts of the non-additive-type adjustments of a list. -/
def subtractiveSum (adjs : List PayrollAdjustment) : Rat :=
  ((adjs.filter fun a => !specAdditiveType a.type).map fun a => a.amount).sum

/-- Claim-side sum: amounts of the record's approved adjustments of additive
type (BONUS, COMMISSION, ALLOWANCE). -/
def approvedAdditionsSum (payrollId : Nat) (adjs : List PayrollAdjustment) : Rat :=
  ((adjs.filter fun a => a.payrollId == payrollId && a.approved && specAdditiveType a.type).map
    fun a => a.amount).sum

/-- Claim-side sum: amounts of the record's approved adjustments of
non-additive type (DEDUCTION, OVERTIME, OTHER — and any other non-additive). -/
def approvedDeductionsSum (payrollId : Nat) (adjs : List PayrollAdjustment) : Rat :=
  ((adjs.filter fun a => a.payrollId == payrollId && a.approved && !specAdditiveType a.type).map
    fun a => a.amount).sum

/-- The specification's net-salary invariant for the payroll record with the
given id: stored `allowances`/`deductions` equal the sums of
currently-approved additive/subtractive adjustments, and
`netSalary = baseSalary + allowances - tax - deductions`. -/
def payrollInvariant (db : DB) (payrollId : Nat) : Prop :=
  ∀ p ∈ db.payrolls, p.id = payrollId →
    p.allowances = approvedAdditionsSum payrollId db.adjustments ∧
    p.deductions = approvedDeductionsSum payrollId db.adjustments ∧
    p.netSalary = p.baseSalary + p.allowances - p.tax - p.deductions

instance (db : DB) (payrollId : Nat) : Decidable (payrollInvariant db payrollId) := by
  unfold payrollInvariant
  infer_instance

/-! ### Characterization of the shared reduce -/

/-- The string-membership test of the source agrees with the claims'
additive-type predicate. -/
theorem contains_name_eq_specAdditiveType (t : AdjustmentType) :
    (["BONUS", "COMMISSION", "ALLOWANCE"].contains t.name) = specAdditiveType t := by
  cases t <;> rfl

theorem adjustmentTotals_foldl (adjs : List PayrollAdjustment)
    (acc : AdjustmentTotals) :
    adjs.foldl
      (fun acc adj =>
        if ["BONUS", "COMMISSION", "ALLOWANCE"].contains adj.type.name then
          { acc with additions := acc.additions + adj.amount }
        else
          { acc with deductions := acc.deductions + adj.amount })
      acc =
      { additions := acc.additions + additiveSum adjs,
        deductions := acc.deductions + subtractiveSum adjs } := by
  induction adjs generalizing acc with
  | nil =>
    simp [additiveSum, subtractiveSum]
  | cons a l ih =>
    simp only [List.foldl_cons]
    by_cases h : (["BONUS", "COMMISSION", "ALLOWANCE"].contains a.type.name : Bool)
    · rw [if_pos h, ih]
      have hs : specAdditiveType a.type = true := by
        rw [← contains_name_eq_specAdditiveType]; exact h
      simp [additiveSum, subtractiveSum, hs, add_assoc]
    · rw [if_neg h, ih]
      have hs : specAdditiveType a.type = false := by
        rw [← contains_name_eq_specAdditiveType]
        exact Bool.not_eq_true _ ▸ h
      simp [additiveSum, subtractiveSum, hs, add_assoc]

/-- The reduce of both recalculation implementations computes the additive and
subtractive sums. -/
theorem adjustmentTotals_eq (adjs : List PayrollAdjustment) :
    adjustmentTotals adjs =
      { additions := additiveSum adjs, deductions := subtractiveSum adjs } := by
  rw [adjustmentTotals, adjustmentTotals_foldl]
  simp

/-- On a payroll whose adjustments are all live (`deletedAt = none`, the only
state the embedded routes ever construct), the raw-SQL selection composed with
the additive partition is the claim-side approved-additions filter. -/
theorem additiveSum_selApprovedLive (payrollId : Nat)
    (adjs : List PayrollAdjustment)
    (hlive : ∀ a ∈ adjs, a.payrollId = payrollId → a.deletedAt = none) :
    additiveSum (adjs.filter (selApprovedLive payrollId)) =
      approvedAdditionsSum payrollId adjs := by
  rw [additiveSum, approvedAdditionsSum, List.filter_filter]
  congr 2
  apply List.filter_congr
  intro a ha
  by_cases hpid : a.payrollId = payrollId
  · simp [selApprovedLive, hpid, hlive a ha hpid, Bool.and_comm]
  · have hb : (a.payrollId == payrollId) = false := by simp [hpid]
    simp [selApprovedLive, hb]

theorem subtractiveSum_selApprovedLive (payrollId : Nat)
    (adjs : List PayrollAdjustment)
    (hlive : ∀ a ∈ adjs, a.payrollId = payrollId → a.deletedAt = none) :
    subtractiveSum (adjs.filter (selApprovedLive payrollId)) =
      approvedDeductionsSum payrollId adjs := by
  rw [subtractiveSum, approvedDeductionsSum, List.filter_filter]
  congr 2
  apply List.filter_congr
  intro a ha
  by_cases hpid : a.payrollId = payrollId
  · simp [selApprovedLive, hpid, hlive a ha hpid, Bool.and_comm]
  · have hb : (a.payrollId == payrollId) = false := by simp [hpid]
    simp [selApprovedLive, hb]

/-! ### Generic helpers about the row-update maps -/

/-- `find?` by id commutes with an id-preserving row map. -/
theorem find?_id_map (l : List Payroll) (g : Payroll → Payroll) (pid : Nat)
    (hg : ∀ p, (g p).id = p.id) :
    (l.map g).find? (fun p => p.id == pid) =
      (l.find? (fun p => p.id == pid)).map g := by
  rw [List.find?_map,
    show ((fun p : Payroll => p.id == pid) ∘ g) = (fun p : Payroll => p.id == pid)
      from funext fun p => by simp [Function.comp, hg]]

/-- The row update performed by `recalculatePayrollNetSalary`, in explicit
form: `find?` on the updated table returns the updated row. -/
theorem recalc_find?_eq (db : DB) (payrollId : Nat) (p : Payroll)
    (hfind : db.payrolls.find? (fun q => q.id == payrollId) = some p) :
    (recalculatePayrollNetSalary db payrollId).payrolls.find?
        (fun q => q.id == payrollId) =
      some { p with
        netSalary := p.baseSalary
          + additiveSum (db.adjustments.filter (selApprovedLive payrollId))
          - p.tax
          - subtractiveSum (db.adjustments.filter (selApprovedLive payrollId)),
        allowances := additiveSum (db.adjustments.filter (selApprovedLive payrollId)),
        deductions := subtractiveSum (db.adjustments.filter (selApprovedLive payrollId)) } := by
  have hp' := List.find?_some hfind
  have hp : (p.id == payrollId) = true := by simpa using hp'
  simp only [recalculatePayrollNetSalary, adjustmentTotals_eq]
  rw [find?_id_map, hfind]
  · simp [hp]
    intro h
    exact absurd (by simpa using hp) h
  · intro q
    by_cases h : q.id == payrollId <;> simp [h]

/-- Adding an adjustment the raw-SQL selection rejects does not change the
payroll table recalculation writes. -/
theorem recalc_cons_irrelevant (db : DB) (payrollId : Nat)
    (a : PayrollAdjustment) (h : selApprovedLive payrollId a = false) :
    (recalculatePayrollNetSalary
        { db with adjustments := a :: db.adjustments } payrollId).payrolls =
      (recalculatePayrollNetSalary db payrollId).payrolls := by
  simp [recalculatePayrollNetSalary, List.filter_cons, h]

/-- C1: recalculate(payrollId) writes allowances equal to the sum of amounts
of the record's approved adjustments of type BONUS, COMMISSION, or ALLOWANCE,
deductions equal to the sum of amounts of all other approved adjustments, and
netSalary = baseSalary + totalAdditions - tax - totalDeductions; unapproved
adjustments contribute nothing to either sum.  (Stated for the raw-SQL
recalculation of the adjustment update/delete route, on states whose
adjustments are not soft-deleted — the only states this code base creates.) -/
theorem claim_C1_recalculate_partitions
    (db : DB) (payrollId : Nat) (p : Payroll)
    (hfind : db.payrolls.find? (fun q => q.id == payrollId) = some p)
    (hlive : ∀ a ∈ db.adjustments, a.payrollId = payrollId → a.deletedAt = none) :
    (∃ p', (recalculatePayrollNetSalary db payrollId).payrolls.find?
        (fun q => q.id == payrollId) = some p' ∧
      p'.allowances = approvedAdditionsSum payrollId db.adjustments ∧
      p'.deductions = approvedDeductionsSum payrollId db.adjustments ∧
      p'.netSalary = p.baseSalary + approvedAdditionsSum payrollId db.adjustments
        - p.tax - approvedDeductionsSum payrollId db.adjustments) ∧
    (∀ a : PayrollAdjustment, a.approved = false →
      (recalculatePayrollNetSalary
          { db with adjustments := a :: db.adjustments } payrollId).payrolls =
        (recalculatePayrollNetSalary db payrollId).payrolls) := by
  constructor
  · refine ⟨_, recalc_find?_eq db payrollId p hfind, ?_, ?_, ?_⟩ <;>
      simp [additiveSum_selApprovedLive payrollId db.adjustments hlive,
        subtractiveSum_selApprovedLive payrollId db.adjustments hlive]
  · intro a ha
    apply recalc_cons_irrelevant
    simp [selApprovedLive, ha]

/-- Concrete payroll record used by the C1 witness. -/
def pC1 : Payroll :=
  { id := 1, employeeId := 1, baseSalary := 5000, allowances := 0, bonuses := 0,
    deductions := 0, tax := 500, netSalary := 4500, status := .DRAFT, notes := none }

/-- Concrete approved live BONUS adjustment of 300 for the C1 witness. -/
def aC1 : PayrollAdjustment :=
  { id := 1, payrollId := 1, type := .BONUS, description := none,
    amount := 300, approved := true, approvedBy := none,
    status := "APPROVED", deletedAt := none }

/-- Concrete store used by the C1 witness: one payroll, one approved live
BONUS adjustment of 300. -/
def dbC1 : DB :=
  { payrolls := [pC1], adjustments := [aC1], nextAdjustmentId := 2 }

/-- An unapproved adjustment used to instantiate the second conjunct of the
C1 witness. -/
def aC1unapproved : PayrollAdjustment :=
  { id := 7, payrollId := 1, type := .OVERTIME, description := none,
    amount := 40, approved := false, approvedBy := none, status := "PENDING",
    deletedAt := none }

theorem claim_C1_witness :
    (∃ p', (recalculatePayrollNetSalary dbC1 1).payrolls.find?
        (fun q => q.id == 1) = some p' ∧
      p'.allowances = approvedAdditionsSum 1 dbC1.adjustments ∧
      p'.deductions = approvedDeductionsSum 1 dbC1.adjustments ∧
      p'.netSalary = pC1.baseSalary + approvedAdditionsSum 1 dbC1.adjustments
        - pC1.tax - approvedDeductionsSum 1 dbC1.adjustments) ∧
    (recalculatePayrollNetSalary
        { dbC1 with adjustments := aC1unapproved :: dbC1.adjustments } 1).payrolls =
      (recalculatePayrollNetSalary dbC1 1).payrolls :=
  ⟨(claim_C1_recalculate_partitions dbC1 1 pC1 (by decide) (by decide)).1,
    (claim_C1_recalculate_partitions dbC1 1 pC1 (by decide) (by decide)).2
      aC1unapproved (by decide)⟩

/-- C7: recalculate(payrollId) modifies only the allowances, deductions, and
netSalary fields of the payroll record identified by payrollId: its
baseSalary and tax are left unchanged, every other payroll record is left
entirely unchanged, and adjustments belonging to a different payroll never
contribute to this record's totals. -/
theorem claim_C7_recalculate_frame (db : DB) (payrollId : Nat) :
    (recalculatePayrollNetSalary db payrollId).adjustments = db.adjustments ∧
    (recalculatePayrollNetSalary db payrollId).nextAdjustmentId = db.nextAdjustmentId ∧
    (recalculatePayrollNetSalary db payrollId).payrolls.length = db.payrolls.length ∧
    (∀ p ∈ db.payrolls, p.id ≠ payrollId →
      p ∈ (recalculatePayrollNetSalary db payrollId).payrolls) ∧
    (∀ p ∈ db.payrolls, p.id = payrollId →
      ∃ p' ∈ (recalculatePayrollNetSalary db payrollId).payrolls,
        p'.id = p.id ∧ p'.employeeId = p.employeeId ∧
        p'.baseSalary = p.baseSalary ∧ p'.tax = p.tax ∧
        p'.bonuses = p.bonuses ∧ p'.status = p.status ∧ p'.notes = p.notes) ∧
    (∀ a : PayrollAdjustment, a.payrollId ≠ payrollId →
      (recalculatePayrollNetSalary
          { db with adjustments := a :: db.adjustments } payrollId).payrolls =
        (recalculatePayrollNetSalary db payrollId).payrolls) := by
  refine ⟨rfl, rfl, by simp [recalculatePayrollNetSalary], ?_, ?_, ?_⟩
  · intro p hp hne
    have hb : (p.id == payrollId) = false := by simp [hne]
    simp only [recalculatePayrollNetSalary, List.mem_map]
    exact ⟨p, hp, by simp [hb]⟩
  · intro p hp hid
    have hb : (p.id == payrollId) = true := by simp [hid]
    simp only [recalculatePayrollNetSalary, List.mem_map]
    refine ⟨_, ⟨p, hp, rfl⟩, ?_⟩
    simp [hb]
  · intro a ha
    apply recalc_cons_irrelevant
    have hb : (a.payrollId == payrollId) = false := by simp [ha]
    simp [selApprovedLive, hb]

/-- Concrete payroll rows for the C7 witness: the target record and an
unrelated record. -/
def pC7target : Payroll :=
  { id := 1, employeeId := 1, baseSalary := 5000, allowances := 0, bonuses := 7,
    deductions := 0, tax := 500, netSalary := 4500, status := .DRAFT, notes := none }

def pC7other : Payroll :=
  { id := 2, employeeId := 2, baseSalary := 1234, allowances := 5, bonuses := 6,
    deductions := 7, tax := 8, netSalary := 1230, status := .PAID, notes := some "x" }

def dbC7 : DB :=
  { payrolls := [pC7target, pC7other],
    adjustments := [aC1], nextAdjustmentId := 2 }

/-- An adjustment of a different payroll (id 2) for the isolation conjunct of
the C7 witness. -/
def aC7foreign : PayrollAdjustment :=
  { id := 9, payrollId := 2, type := .BONUS, description := none,
    amount := 1000, approved := true, approvedBy := none,
    status := "APPROVED", deletedAt := none }

theorem claim_C7_witness :
    pC7other ∈ (recalculatePayrollNetSalary dbC7 1).payrolls ∧
    (∃ p' ∈ (recalculatePayrollNetSalary dbC7 1).payrolls,
      p'.id = pC7target.id ∧ p'.employeeId = pC7target.employeeId ∧
      p'.baseSalary = pC7target.baseSalary ∧ p'.tax = pC7target.tax ∧
      p'.bonuses = pC7target.bonuses ∧ p'.status = pC7target.status ∧
      p'.notes = pC7target.notes) ∧
    (recalculatePayrollNetSalary
        { dbC7 with adjustments := aC7foreign :: dbC7.adjustments } 1).payrolls =
      (recalculatePayrollNetSalary dbC7 1).payrolls :=
  ⟨(claim_C7_recalculate_frame dbC7 1).2.2.2.1 pC7other (by decide) (by decide),
    (claim_C7_recalculate_frame dbC7 1).2.2.2.2.1 pC7target (by decide) (by decide),
    (claim_C7_recalculate_frame dbC7 1).2.2.2.2.2 aC7foreign (by decide)⟩

/-- C8: calling recalculate twice in a row with no intervening change yields
the same store as calling it once — for both recalculation implementations
(the raw-SQL one of the update/delete route and the Prisma one of the create
route). -/
theorem claim_C8_recalculate_idempotent (db : DB) (payrollId : Nat) :
    recalculatePayrollNetSalary (recalculatePayrollNetSalary db payrollId) payrollId =
      recalculatePayrollNetSalary db payrollId ∧
    recalculatePayrollNetSalaryOnCreate
        (recalculatePayrollNetSalaryOnCreate db payrollId) payrollId =
      recalculatePayrollNetSalaryOnCreate db payrollId := by
  constructor
  · simp only [recalculatePayrollNetSalary]
    congr 1
    rw [List.map_map]
    apply List.map_congr_left
    intro p _
    by_cases h : p.id == payrollId
    · simp [Function.comp, h]
    · simp [Function.comp, h]
  · cases hf : db.payrolls.find? (fun p => p.id == payrollId) with
    | none =>
      have h1 : recalculatePayrollNetSalaryOnCreate db payrollId = db := by
        simp [recalculatePayrollNetSalaryOnCreate, hf]
      rw [h1, h1]
    | some p0 =>
      have hp0 : (p0.id == payrollId) = true := by
        simpa using List.find?_some hf
      have h1' : recalculatePayrollNetSalaryOnCreate db payrollId =
          { db with
            payrolls := db.payrolls.map fun p =>
              if p.id == payrollId then
                { p with
                  netSalary := p0.baseSalary
                    + (adjustmentTotals (db.adjustments.filter
                        (selStatusApproved payrollId))).additions
                    - p0.tax
                    - (adjustmentTotals (db.adjustments.filter
                        (selStatusApproved payrollId))).deductions,
                  allowances := (adjustmentTotals (db.adjustments.filter
                      (selStatusApproved payrollId))).additions,
                  deductions := (adjustmentTotals (db.adjustments.filter
                      (selStatusApproved payrollId))).deductions }
              else p } := by
        simp [recalculatePayrollNetSalaryOnCreate, hf]
      have hadj : (recalculatePayrollNetSalaryOnCreate db payrollId).adjustments =
          db.adjustments := by
        rw [h1']
      have hfind2 : (recalculatePayrollNetSalaryOnCreate db payrollId).payrolls.find?
          (fun p => p.id == payrollId) =
            some { p0 with
              netSalary := p0.baseSalary
                + (adjustmentTotals (db.adjustments.filter
                    (selStatusApproved payrollId))).additions
                - p0.tax
                - (adjustmentTotals (db.adjustments.filter
                    (selStatusApproved payrollId))).deductions,
              allowances := (adjustmentTotals (db.adjustments.filter
                  (selStatusApproved payrollId))).additions,
              deductions := (adjustmentTotals (db.adjustments.filter
                  (selStatusApproved payrollId))).deductions } := by
        rw [h1']
        show (db.payrolls.map _).find? _ = _
        rw [find?_id_map, hf]
        · simp [hp0]
          intro h
          exact absurd (by simpa using hp0) h
        · intro q
          by_cases h : q.id == payrollId <;> simp [h]
      generalize hdb2 : recalculatePayrollNetSalaryOnCreate db payrollId = db2 at hadj hfind2 h1'
      simp only [recalculatePayrollNetSalaryOnCreate, hadj, hfind2]
      rw [h1']
      congr 1
      rw [List.map_map]
      apply List.map_congr_left
      intro p _
      by_cases h : p.id == payrollId
      · simp [Function.comp, h]
      · simp [Function.comp, h]

theorem claim_C8_witness :
    recalculatePayrollNetSalary (recalculatePayrollNetSalary dbC1 1) 1 =
      recalculatePayrollNetSalary dbC1 1 ∧
    recalculatePayrollNetSalaryOnCreate
        (recalculatePayrollNetSalaryOnCreate dbC1 1) 1 =
      recalculatePayrollNetSalaryOnCreate dbC1 1 :=
  claim_C8_recalculate_idempotent dbC1 1

/-- The raw-SQL recalculation establishes the net-salary invariant for the
recalculated payroll (on stores without soft-deleted adjustments). -/
theorem recalc_establishes_invariant (db : DB) (payrollId : Nat)
    (hlive : ∀ a ∈ db.adjustments, a.payrollId = payrollId → a.deletedAt = none) :
    payrollInvariant (recalculatePayrollNetSalary db payrollId) payrollId := by
  intro p' hp' hid
  have hadj : (recalculatePayrollNetSalary db payrollId).adjustments =
      db.adjustments := rfl
  rw [hadj]
  simp only [recalculatePayrollNetSalary, adjustmentTotals_eq, List.mem_map] at hp'
  obtain ⟨p, hp, hgp⟩ := hp'
  by_cases h : p.id == payrollId
  · rw [if_pos h] at hgp
    rw [← hgp]
    refine ⟨?_, ?_, ?_⟩ <;>
      simp [additiveSum_selApprovedLive payrollId db.adjustments hlive,
        subtractiveSum_selApprovedLive payrollId db.adjustments hlive]
  · rw [if_neg h] at hgp
    exact absurd (show p.id = payrollId by rw [hgp]; exact hid) (by simpa using h)

/-- Concrete state for the C2 counterexample: the invariant holds, with one
approved BONUS adjustment of 100 reflected in the stored totals. -/
def pC2 : Payroll :=
  { id := 1, employeeId := 1, baseSalary := 1000, allowances := 100, bonuses := 0,
    deductions := 0, tax := 0, netSalary := 1100, status := .DRAFT, notes := none }

def aC2 : PayrollAdjustment :=
  { id := 1, payrollId := 1, type := .BONUS, description := none, amount := 100,
    approved := true, approvedBy := none, status := "APPROVED", deletedAt := none }

def dbC2 : DB := { payrolls := [pC2], adjustments := [aC2], nextAdjustmentId := 2 }

/-- A patch that changes only the adjustment's type (BONUS → DEDUCTION). -/
def patchC2 : UpdateAdjustmentPatch :=
  { type := some "DEDUCTION", amount := none, description := none,
    approved := none, approvedBy := none }

/-- C2 counterexample: starting from a state satisfying the invariant, an
updateAdjustment whose patch changes only the adjustment's type succeeds but
leaves the invariant violated — the PATCH route only recalculates
`if (amount !== undefined || approved !== undefined)`, so retyping an
approved BONUS 100 into a DEDUCTION leaves allowances = 100 and
netSalary = 1100 while the approved additive sum is now 0 and the approved
subtractive sum is 100. -/
theorem claim_C2_counterexample :
    payrollInvariant dbC2 1 ∧
    (updateAdjustmentRoute dbC2 1 patchC2).1.toOption =
      some { aC2 with type := .DEDUCTION } ∧
    ¬ payrollInvariant (updateAdjustmentRoute dbC2 1 patchC2).2 1 := by
  refine ⟨?_, ?_, ?_⟩
  · simp +decide only [payrollInvariant, dbC2, pC2, aC2, approvedAdditionsSum,
      approvedDeductionsSum, specAdditiveType, List.filter, List.map,
      List.mem_singleton, forall_eq]
    norm_num
  · simp +decide [updateAdjustmentRoute, dbC2, aC2, patchC2, applyAdjustmentPatch,
      parseAdjustmentType]
  · simp +decide [payrollInvariant, updateAdjustmentRoute, dbC2, pC2, aC2, patchC2,
      applyAdjustmentPatch, parseAdjustmentType, recalculatePayrollNetSalary,
      adjustmentTotals, selApprovedLive, approvedAdditionsSum,
      approvedDeductionsSum, specAdditiveType, AdjustmentType.name]

/-- C2 (amended): the net-salary invariant holds immediately after every
operation that triggers the flag-based recalculation — every successful
updateAdjustment whose patch includes amount or approved, and every
successful deleteAdjustment.  (It can fail after a type-only update, which
triggers no recalculation, and after createAdjustment, whose recalculation
selects by the status column.) -/
theorem claim_C2_invariant_after_triggering_ops (db : DB) (adjId : Nat)
    (hlive : ∀ a ∈ db.adjustments, a.deletedAt = none) :
    (∀ patch : UpdateAdjustmentPatch,
      patch.amount ≠ none ∨ patch.approved ≠ none →
      ∀ a', (updateAdjustmentRoute db adjId patch).1 = .ok a' →
        payrollInvariant (updateAdjustmentRoute db adjId patch).2 a'.payrollId) ∧
    (∀ a, db.adjustments.find? (fun x => x.id == adjId) = some a →
      payrollInvariant (deleteAdjustmentRoute db adjId).2 a.payrollId) := by
  constructor
  · intro patch hpa a' hok
    cases hf : db.adjustments.find? (fun x => x.id == adjId) with
    | none =>
      simp only [updateAdjustmentRoute, hf] at hok
      exact Except.noConfusion hok
    | some existing =>
      have hcond : (patch.amount != none || patch.approved != none) = true := by
        rcases hpa with h | h <;> simp [h]
      by_cases hty : patch.type.getD "" != "" &&
          parseAdjustmentType (patch.type.getD "") == none
      · simp only [updateAdjustmentRoute, hf] at hok
        rw [if_pos hty] at hok
        exact Except.noConfusion hok
      · have hres : (updateAdjustmentRoute db adjId patch).2 =
            recalculatePayrollNetSalary
              { db with
                adjustments := db.adjustments.map fun a =>
                  if a.id == adjId then applyAdjustmentPatch patch a else a }
              existing.payrollId := by
          simp only [updateAdjustmentRoute, hf]
          rw [if_neg hty]
          simp [hcond]
        have hpid : a'.payrollId = existing.payrollId := by
          simp only [updateAdjustmentRoute, hf] at hok
          rw [if_neg hty] at hok
          simp at hok
          rw [← hok]
          rfl
        rw [hres, hpid]
        apply recalc_establishes_invariant
        intro a ha _
        simp only [List.mem_map] at ha
        obtain ⟨b, hb, hba⟩ := ha
        have hbd : a.deletedAt = b.deletedAt := by
          rw [← hba]
          by_cases h : b.id == adjId <;> simp [h, applyAdjustmentPatch]
        rw [hbd]
        exact hlive b hb
  · intro a hf
    have hres : (deleteAdjustmentRoute db adjId).2 =
        recalculatePayrollNetSalary
          { db with adjustments := db.adjustments.filter fun x => !(x.id == adjId) }
          a.payrollId := by
      simp only [deleteAdjustmentRoute, hf]
    rw [hres]
    apply recalc_establishes_invariant
    intro b hb _
    exact hlive b (List.mem_of_mem_filter hb)

/-- Consistent concrete state for the C2 witness. -/
def pC2w : Payroll :=
  { id := 1, employeeId := 1, baseSalary := 1000, allowances := 50, bonuses := 0,
    deductions := 0, tax := 100, netSalary := 950, status := .DRAFT, notes := none }

def aC2w : PayrollAdjustment :=
  { id := 1, payrollId := 1, type := .ALLOWANCE, description := none, amount := 50,
    approved := true, approvedBy := none, status := "APPROVED", deletedAt := none }

def dbC2w : DB := { payrolls := [pC2w], adjustments := [aC2w], nextAdjustmentId := 2 }

/-- Patch containing an amount change, so it triggers recalculation. -/
def patchC2w : UpdateAdjustmentPatch :=
  { type := none, amount := some 80, description := none,
    approved := none, approvedBy := none }

theorem claim_C2_witness :
    payrollInvariant (updateAdjustmentRoute dbC2w 1 patchC2w).2
      ({ aC2w with amount := 80 } : PayrollAdjustment).payrollId ∧
    payrollInvariant (deleteAdjustmentRoute dbC2w 1).2 aC2w.payrollId :=
  ⟨(claim_C2_invariant_after_triggering_ops dbC2w 1 (by decide)).1 patchC2w
      (Or.inl (by decide)) ({ aC2w with amount := 80 }) (by rfl),
    (claim_C2_invariant_after_triggering_ops dbC2w 1 (by decide)).2 aC2w (by rfl)⟩

/-- Claim-side sum for the create-route selection: amounts of the record's
adjustments with status "APPROVED" and additive type. -/
def statusApprovedAdditionsSum (payrollId : Nat) (adjs : List PayrollAdjustment) : Rat :=
  ((adjs.filter fun a => a.payrollId == payrollId && a.status == "APPROVED" &&
    specAdditiveType a.type).map fun a => a.amount).sum

/-- Claim-side sum for the create-route selection: amounts of the record's
adjustments with status "APPROVED" and non-additive type. -/
def statusApprovedDeductionsSum (payrollId : Nat) (adjs : List PayrollAdjustment) : Rat :=
  ((adjs.filter fun a => a.payrollId == payrollId && a.status == "APPROVED" &&
    !specAdditiveType a.type).map fun a => a.amount).sum

theorem additiveSum_selStatusApproved (payrollId : Nat)
    (adjs : List PayrollAdjustment) :
    additiveSum (adjs.filter (selStatusApproved payrollId)) =
      statusApprovedAdditionsSum payrollId adjs := by
  rw [additiveSum, statusApprovedAdditionsSum, List.filter_filter]
  congr 2
  apply List.filter_congr
  intro a _
  simp [selStatusApproved, Bool.and_comm]

theorem subtractiveSum_selStatusApproved (payrollId : Nat)
    (adjs : List PayrollAdjustment) :
    subtractiveSum (adjs.filter (selStatusApproved payrollId)) =
      statusApprovedDeductionsSum payrollId adjs := by
  rw [subtractiveSum, statusApprovedDeductionsSum, List.filter_filter]
  congr 2
  apply List.filter_congr
  intro a _
  simp [selStatusApproved, Bool.and_comm]

/-- The row update performed by the create-route recalculation, in explicit
form: on the found payroll row it writes the status-approved sums and the
net-salary formula computed from that row. -/
theorem recalcOnCreate_find?_eq (db : DB) (payrollId : Nat) (p : Payroll)
    (hfind : db.payrolls.find? (fun q => q.id == payrollId) = some p) :
    (recalculatePayrollNetSalaryOnCreate db payrollId).payrolls.find?
        (fun q => q.id == payrollId) =
      some { p with
        netSalary := p.baseSalary
          + additiveSum (db.adjustments.filter (selStatusApproved payrollId))
          - p.tax
          - subtractiveSum (db.adjustments.filter (selStatusApproved payrollId)),
        allowances := additiveSum (db.adjustments.filter (selStatusApproved payrollId)),
        deductions := subtractiveSum (db.adjustments.filter (selStatusApproved payrollId)) } := by
  have hp : (p.id == payrollId) = true := by simpa using List.find?_some hfind
  simp only [recalculatePayrollNetSalaryOnCreate, adjustmentTotals_eq, hfind]
  rw [find?_id_map, hfind]
  · simp [hp]
    intro h
    exact absurd (by simpa using hp) h
  · intro q
    by_cases h : q.id == payrollId <;> simp [h]

/-- The create-route recalculation never touches the adjustments table or the
id counter. -/
theorem recalcOnCreate_frame (db : DB) (payrollId : Nat) :
    (recalculatePayrollNetSalaryOnCreate db payrollId).adjustments = db.adjustments ∧
    (recalculatePayrollNetSalaryOnCreate db payrollId).nextAdjustmentId =
      db.nextAdjustmentId := by
  rw [recalculatePayrollNetSalaryOnCreate]
  cases db.payrolls.find? (fun p => p.id == payrollId) <;> exact ⟨rfl, rfl⟩

/-- Payroll row for the C3 counterexample, with stored totals that a
recalculation visibly overwrites. -/
def pC3 : Payroll :=
  { id := 1, employeeId := 1, baseSalary := 1000, allowances := 77, bonuses := 0,
    deductions := 0, tax := 100, netSalary := 977, status := .DRAFT, notes := none }

def dbC3 : DB := { payrolls := [pC3], adjustments := [], nextAdjustmentId := 1 }

/-- createAdjustment request with amount = -50. -/
def inC3 : CreateAdjustmentInput :=
  { payrollId := some 1, type := some "DEDUCTION", amount := some (-50),
    description := none, approved := some false, approvedBy := none }

/-- The adjustment the C3 request actually creates. -/
def aC3new : PayrollAdjustment :=
  { id := 1, payrollId := 1, type := .DEDUCTION, description := none,
    amount := -50, approved := false, approvedBy := none, status := "PENDING",
    deletedAt := none }

/-- C3 counterexample: createAdjustment with amount = -50 does NOT fail with
ValidationError — the POST route validates only presence and the type enum,
never the sign of amount.  The call succeeds, persists the adjustment with
amount -50, and triggers the recalculation (observably: the stale stored
allowances 77 / netSalary 977 are overwritten with 0 / 900). -/
theorem claim_C3_counterexample :
    (createAdjustmentRoute false dbC3 inC3).1.toOption = some aC3new ∧
    (createAdjustmentRoute false dbC3 inC3).2.adjustments = [aC3new] ∧
    (createAdjustmentRoute false dbC3 inC3).2.payrolls =
      [{ pC3 with allowances := 0, deductions := 0, netSalary := 900 }] := by
  refine ⟨?_, ?_, ?_⟩ <;>
    simp +decide [createAdjustmentRoute, dbC3, inC3, pC3, aC3new,
      parseAdjustmentType, recalculatePayrollNetSalaryOnCreate,
      adjustmentTotals, selStatusApproved, newAdjustment, dbAfterCreate] <;>
    norm_num

/-- C3 (amended): createAdjustment performs no validation of amount — for any
amount q < 0 (and otherwise valid input), the operation succeeds, persists
the adjustment with the negative amount, and triggers the create-route
recalculation, which overwrites the payroll's derived fields with the
status-approved sums. -/
theorem claim_C3_negative_amount_accepted
    (db : DB) (input : CreateAdjustmentInput) (pid : Nat) (ty : String)
    (t : AdjustmentType) (q : Rat) (p : Payroll)
    (hpid : input.payrollId = some pid) (hpid0 : pid ≠ 0)
    (hty : input.type = some ty) (htyne : ty ≠ "")
    (hparse : parseAdjustmentType ty = some t)
    (hamt : input.amount = some q) (hneg : q < 0)
    (hfind : db.payrolls.find? (fun x => x.id == pid) = some p) :
    ∃ a', (createAdjustmentRoute false db input).1 = .ok a' ∧
      a'.amount = q ∧
      (createAdjustmentRoute false db input).2.adjustments =
        db.adjustments ++ [a'] ∧
      ∃ p', (createAdjustmentRoute false db input).2.payrolls.find?
          (fun x => x.id == pid) = some p' ∧
        p'.allowances = statusApprovedAdditionsSum pid (db.adjustments ++ [a']) ∧
        p'.deductions = statusApprovedDeductionsSum pid (db.adjustments ++ [a']) ∧
        p'.netSalary = p.baseSalary
          + statusApprovedAdditionsSum pid (db.adjustments ++ [a'])
          - p.tax
          - statusApprovedDeductionsSum pid (db.adjustments ++ [a']) := by
  have hc : (pid == 0 || ty == "") = false := by simp [hpid0, htyne]
  have hres : createAdjustmentRoute false db input =
      (.ok (newAdjustment db input pid t q),
        recalculatePayrollNetSalaryOnCreate
          (dbAfterCreate db (newAdjustment db input pid t q)) pid) := by
    simp only [createAdjustmentRoute, hpid, hty, hamt, hc, hparse, hfind]
    rfl
  rw [hres]
  have hadj2 : (recalculatePayrollNetSalaryOnCreate
      (dbAfterCreate db (newAdjustment db input pid t q)) pid).adjustments =
        db.adjustments ++ [newAdjustment db input pid t q] :=
    (recalcOnCreate_frame _ pid).1
  have hfind1 : (dbAfterCreate db (newAdjustment db input pid t q)).payrolls.find?
      (fun x => x.id == pid) = some p := hfind
  refine ⟨_, rfl, rfl, hadj2, ?_⟩
  refine ⟨_, recalcOnCreate_find?_eq _ pid p hfind1, ?_, ?_, ?_⟩ <;>
    simp only [dbAfterCreate, additiveSum_selStatusApproved,
      subtractiveSum_selStatusApproved]

theorem claim_C3_witness :
    ∃ a', (createAdjustmentRoute false dbC3 inC3).1 = .ok a' ∧
      a'.amount = -50 ∧
      (createAdjustmentRoute false dbC3 inC3).2.adjustments =
        dbC3.adjustments ++ [a'] ∧
      ∃ p', (createAdjustmentRoute false dbC3 inC3).2.payrolls.find?
          (fun x => x.id == 1) = some p' ∧
        p'.allowances = statusApprovedAdditionsSum 1 (dbC3.adjustments ++ [a']) ∧
        p'.deductions = statusApprovedDeductionsSum 1 (dbC3.adjustments ++ [a']) ∧
        p'.netSalary = pC3.baseSalary
          + statusApprovedAdditionsSum 1 (dbC3.adjustments ++ [a'])
          - pC3.tax
          - statusApprovedDeductionsSum 1 (dbC3.adjustments ++ [a']) :=
  claim_C3_negative_amount_accepted dbC3 inC3 1 "DEDUCTION" .DEDUCTION (-50) pC3
    rfl (by decide) rfl (by decide) rfl rfl (by norm_num) rfl

/-- Payroll row for the C4 counterexample: stored bonuses = 200. -/
def pC4 : Payroll :=
  { id := 1, employeeId := 1, baseSalary := 5000, allowances := 300,
    bonuses := 200, deductions := 0, tax := 500, netSalary := 5000,
    status := .DRAFT, notes := none }

def dbC4 : DB := { payrolls := [pC4], adjustments := [], nextAdjustmentId := 1 }

/-- Patch changing only baseSalary, 5000 → 5500. -/
def patchC4 : UpdatePayrollPatch :=
  { baseSalary := some 5500, allowances := none, bonuses := none,
    deductions := none, tax := none, status := none, notes := none }

/-- C4 counterexample: with stored bonuses = 200, changing baseSalary from
5000 to 5500 while allowances = 300, deductions = 0, tax = 500 stores
netSalary = 5500 + 300 + 200 - 0 - 500 = 5500, not the claimed
newBaseSalary + currentAllowances - newTax - currentDeductions = 5300 —
the route's recompute also adds the stored `bonuses` column, which the claim
(and the specification) omits. -/
theorem claim_C4_counterexample :
    ((updatePayrollRoute dbC4 1 patchC4).1.toOption.map fun p => p.netSalary) =
      some 5500 ∧
    (5500 : Rat) ≠ 5500 + 300 - 500 - 0 := by
  constructor
  · simp +decide [updatePayrollRoute, dbC4, pC4, patchC4, patchPayrollRow]
    exact ⟨_, rfl, by norm_num⟩
  · norm_num

/-- C4 (amended): a directUpdatePayroll whose patch changes baseSalary or tax
(and does not touch allowances/bonuses/deductions) stores
netSalary = newBaseSalary + currentAllowances + currentBonuses - newTax -
currentDeductions, where the current values are the stored columns; the
adjustments table is never read (identical result for every adjustments
list). -/
theorem claim_C4_direct_update_formula
    (db : DB) (payrollId : Nat) (patch : UpdatePayrollPatch) (p : Payroll)
    (hfind : db.payrolls.find? (fun x => x.id == payrollId) = some p)
    (hst : patch.status = none)
    (hallow : patch.allowances = none) (hbon : patch.bonuses = none)
    (hded : patch.deductions = none)
    (hfin : patch.baseSalary ≠ none ∨ patch.tax ≠ none) :
    ∃ p', (updatePayrollRoute db payrollId patch).1 = .ok p' ∧
      p'.netSalary = patch.baseSalary.getD p.baseSalary + p.allowances
        + p.bonuses - p.deductions - patch.tax.getD p.tax ∧
      (updatePayrollRoute db payrollId patch).2.payrolls.find?
        (fun x => x.id == payrollId) = some p' ∧
      ∀ l : List PayrollAdjustment,
        (updatePayrollRoute { db with adjustments := l } payrollId patch).2.payrolls =
          (updatePayrollRoute db payrollId patch).2.payrolls := by
  have hp : (p.id == payrollId) = true := by simpa using List.find?_some hfind
  have hstc : ¬((patch.status.getD "" != "" &&
      parsePayrollStatus (patch.status.getD "") == none) = true) := by
    simp [hst]
  have hcond : (patch.baseSalary != none || patch.allowances != none ||
      patch.bonuses != none || patch.deductions != none ||
      patch.tax != none) = true := by
    rcases hfin with h | h <;> simp [h]
  have hres : updatePayrollRoute db payrollId patch =
      (.ok (patchPayrollRow patch
          (patch.baseSalary.getD p.baseSalary + patch.allowances.getD p.allowances
            + patch.bonuses.getD p.bonuses - patch.deductions.getD p.deductions
            - patch.tax.getD p.tax) p),
        { db with
          payrolls := db.payrolls.map fun q =>
            if q.id == payrollId then
              patchPayrollRow patch
                (patch.baseSalary.getD p.baseSalary
                  + patch.allowances.getD p.allowances
                  + patch.bonuses.getD p.bonuses
                  - patch.deductions.getD p.deductions
                  - patch.tax.getD p.tax) q
            else q }) := by
    simp only [updatePayrollRoute, hfind]
    rw [if_neg hstc]
    simp only [hcond, if_true]
  rw [hres]
  refine ⟨_, rfl, ?_, ?_, ?_⟩
  · simp [patchPayrollRow, hallow, hbon, hded]
  · rw [find?_id_map, hfind]
    · simp [hp]
      intro h
      exact absurd (by simpa using hp) h
    · intro q
      by_cases h : q.id == payrollId <;> simp [h, patchPayrollRow]
  · intro l
    have hres2 : updatePayrollRoute { db with adjustments := l } payrollId patch =
        (.ok (patchPayrollRow patch
            (patch.baseSalary.getD p.baseSalary + patch.allowances.getD p.allowances
              + patch.bonuses.getD p.bonuses - patch.deductions.getD p.deductions
              - patch.tax.getD p.tax) p),
          { db with
            adjustments := l,
            payrolls := db.payrolls.map fun q =>
              if q.id == payrollId then
                patchPayrollRow patch
                  (patch.baseSalary.getD p.baseSalary
                    + patch.allowances.getD p.allowances
                    + patch.bonuses.getD p.bonuses
                    - patch.deductions.getD p.deductions
                    - patch.tax.getD p.tax) q
              else q }) := by
      simp only [updatePayrollRoute, hfind]
      rw [if_neg hstc]
      simp only [hcond, if_true]
    rw [hres2]

/-- Payroll row for the C4 witness: scenario 6 of the specification, with
bonuses = 0. -/
def pC4w : Payroll :=
  { id := 1, employeeId := 1, baseSalary := 5000, allowances := 300, bonuses := 0,
    deductions := 0, tax := 500, netSalary := 4800, status := .DRAFT, notes := none }

def dbC4w : DB := { payrolls := [pC4w], adjustments := [], nextAdjustmentId := 1 }

/-- An arbitrary adjustment list entry showing the C4 result ignores the
adjustments table. -/
def aC4w : PayrollAdjustment :=
  { id := 3, payrollId := 1, type := .BONUS, description := none, amount := 999,
    approved := true, approvedBy := none, status := "APPROVED", deletedAt := none }

theorem claim_C4_witness :
    ∃ p', (updatePayrollRoute dbC4w 1 patchC4).1 = .ok p' ∧
      p'.netSalary = patchC4.baseSalary.getD pC4w.baseSalary + pC4w.allowances
        + pC4w.bonuses - pC4w.deductions - patchC4.tax.getD pC4w.tax ∧
      (updatePayrollRoute dbC4w 1 patchC4).2.payrolls.find?
        (fun x => x.id == 1) = some p' ∧
      (updatePayrollRoute { dbC4w with adjustments := [aC4w] } 1 patchC4).2.payrolls =
        (updatePayrollRoute dbC4w 1 patchC4).2.payrolls := by
  obtain ⟨p', h1, h2, h3, h4⟩ :=
    claim_C4_direct_update_formula dbC4w 1 patchC4 pC4w rfl rfl rfl rfl rfl
      (Or.inl (by decide))
  exact ⟨p', h1, h2, h3, h4 [aC4w]⟩

/-- Payroll row for C5: a consistent record (no adjustments, net = base - tax). -/
def pC5 : Payroll :=
  { id := 1, employeeId := 1, baseSalary := 1000, allowances := 0, bonuses := 0,
    deductions := 0, tax := 100, netSalary := 900, status := .DRAFT, notes := none }

def dbC5 : DB := { payrolls := [pC5], adjustments := [], nextAdjustmentId := 1 }

/-- createAdjustment request for an approved BONUS of 300. -/
def inC5 : CreateAdjustmentInput :=
  { payrollId := some 1, type := some "BONUS", amount := some 300,
    description := none, approved := some true, approvedBy := none }

/-- The adjustment that request persists. -/
def aC5new : PayrollAdjustment :=
  { id := 1, payrollId := 1, type := .BONUS, description := none, amount := 300,
    approved := true, approvedBy := none, status := "PENDING", deletedAt := none }

/-- C5 counterexample: when the recalculation step inside createAdjustment
fails (modelled as the store write inside `recalculatePayrollNetSalary`
throwing, which the route's catch block turns into a 500 response), the
operation reports failure but the already-committed
`prisma.payrollAdjustment.create` is NOT rolled back: the approved BONUS 300
row survives while the payroll totals were never updated — exactly the
partial state the claim forbids. -/
theorem claim_C5_counterexample :
    (createAdjustmentRoute true dbC5 inC5).1 =
      .error (.serverError "Failed to create payroll adjustment") ∧
    (createAdjustmentRoute true dbC5 inC5).2.adjustments = [aC5new] ∧
    (createAdjustmentRoute true dbC5 inC5).2.payrolls = dbC5.payrolls := by
  refine ⟨?_, ?_, ?_⟩ <;>
    simp +decide [createAdjustmentRoute, dbC5, inC5, pC5, aC5new,
      parseAdjustmentType, newAdjustment, dbAfterCreate]

/-- C5 (amended): create and recalculation are separate store operations with
no common transaction; if the recalculation fails after the create has
committed, the whole route returns an error but the created adjustment
remains persisted and the payroll record is untouched — there is no
rollback. -/
theorem claim_C5_no_rollback_on_recalc_failure
    (db : DB) (input : CreateAdjustmentInput) (pid : Nat) (ty : String)
    (t : AdjustmentType) (q : Rat) (p : Payroll)
    (hpid : input.payrollId = some pid) (hpid0 : pid ≠ 0)
    (hty : input.type = some ty) (htyne : ty ≠ "")
    (hparse : parseAdjustmentType ty = some t)
    (hamt : input.amount = some q)
    (hfind : db.payrolls.find? (fun x => x.id == pid) = some p) :
    (createAdjustmentRoute true db input).1 =
      .error (.serverError "Failed to create payroll adjustment") ∧
    (createAdjustmentRoute true db input).2.adjustments =
      db.adjustments ++ [newAdjustment db input pid t q] ∧
    (createAdjustmentRoute true db input).2.payrolls = db.payrolls := by
  have hc : (pid == 0 || ty == "") = false := by simp [hpid0, htyne]
  simp only [createAdjustmentRoute, hpid, hty, hamt, hc, hparse, hfind]
  exact ⟨rfl, rfl, rfl⟩

theorem claim_C5_witness :
    (createAdjustmentRoute true dbC3 inC3).1 =
      .error (.serverError "Failed to create payroll adjustment") ∧
    (createAdjustmentRoute true dbC3 inC3).2.adjustments =
      dbC3.adjustments ++ [newAdjustment dbC3 inC3 1 .DEDUCTION (-50)] ∧
    (createAdjustmentRoute true dbC3 inC3).2.payrolls = dbC3.payrolls :=
  claim_C5_no_rollback_on_recalc_failure dbC3 inC3 1 "DEDUCTION" .DEDUCTION
    (-50) pC3 rfl (by decide) rfl (by decide) rfl rfl rfl

theorem additiveSum_append (l₁ l₂ : List PayrollAdjustment) :
    additiveSum (l₁ ++ l₂) = additiveSum l₁ + additiveSum l₂ := by
  simp [additiveSum, List.filter_append]

theorem subtractiveSum_append (l₁ l₂ : List PayrollAdjustment) :
    subtractiveSum (l₁ ++ l₂) = subtractiveSum l₁ + subtractiveSum l₂ := by
  simp [subtractiveSum, List.filter_append]

theorem additiveSum_singleton (a : PayrollAdjustment) :
    additiveSum [a] = if specAdditiveType a.type then a.amount else 0 := by
  by_cases h : specAdditiveType a.type <;> simp [additiveSum, h]

theorem subtractiveSum_singleton (a : PayrollAdjustment) :
    subtractiveSum [a] = if specAdditiveType a.type then 0 else a.amount := by
  by_cases h : specAdditiveType a.type <;> simp [subtractiveSum, h]

/-- When, for every adjustment of this payroll, the status column agrees with
the approved flag (status "APPROVED" exactly when approved and not
soft-deleted), the two selection predicates pick the same rows. -/
theorem filter_statusApproved_eq_filter_approvedLive (pid : Nat)
    (adjs : List PayrollAdjustment)
    (hco : ∀ a ∈ adjs, a.payrollId = pid →
      (a.status == "APPROVED") = (a.approved && a.deletedAt == none)) :
    adjs.filter (selStatusApproved pid) = adjs.filter (selApprovedLive pid) := by
  apply List.filter_congr
  intro a ha
  by_cases hb : a.payrollId = pid
  · simp [selStatusApproved, selApprovedLive, hb, hco a ha hb, Bool.and_assoc]
  · have hbf : (a.payrollId == pid) = false := by simp [hb]
    simp [selStatusApproved, selApprovedLive, hbf]

/-- `find?` skips a prefix on which the predicate is false. -/
theorem find?_append_right {α : Type} (l₁ l₂ : List α) (pred : α → Bool)
    (h : ∀ b ∈ l₁, pred b = false) :
    (l₁ ++ l₂).find? pred = l₂.find? pred := by
  induction l₁ with
  | nil => rfl
  | cons b l ih =>
    have hb : pred b = false := h b (List.mem_cons_self b l)
    have ih' := ih fun c hc => h c (List.mem_cons_of_mem b hc)
    simp only [List.cons_append, List.find?_cons, hb, cond_false, ih']

/-- Payroll row for the C6 counterexample: stored allowances = 300 that no
approved adjustment backs (reachable via payroll creation or a direct payroll
PATCH, neither of which recalculates from adjustments). -/
def pC6 : Payroll :=
  { id := 1, employeeId := 1, baseSalary := 1000, allowances := 300, bonuses := 0,
    deductions := 0, tax := 0, netSalary := 1300, status := .DRAFT, notes := none }

def dbC6 : DB := { payrolls := [pC6], adjustments := [], nextAdjustmentId := 1 }

/-- createAdjustment request with approved = false. -/
def inC6 : CreateAdjustmentInput :=
  { payrollId := some 1, type := some "BONUS", amount := some 50,
    description := none, approved := some false, approvedBy := none }

/-- C6 counterexample: a successful createAdjustment with approved = false
does NOT leave the record's derived fields unchanged in general — the POST
route recalculates unconditionally, overwriting the stored allowances 300 /
netSalary 1300 with 0 / 1000. -/
theorem claim_C6_counterexample :
    ∃ a', (createAdjustmentRoute false dbC6 inC6).1 = .ok a' ∧
      a'.approved = false ∧
      ((createAdjustmentRoute false dbC6 inC6).2.payrolls.map fun p =>
        (p.allowances, p.netSalary)) = [(0, 1000)] ∧
      pC6.allowances = 300 ∧ pC6.netSalary = 1300 := by
  refine ⟨newAdjustment dbC6 inC6 1 .BONUS 50, ?_, rfl, ?_, rfl, rfl⟩
  · simp +decide [createAdjustmentRoute, dbC6, inC6, parseAdjustmentType, pC6,
      newAdjustment, dbAfterCreate]
  · simp +decide [createAdjustmentRoute, dbC6, inC6, parseAdjustmentType, pC6,
      newAdjustment, dbAfterCreate, recalculatePayrollNetSalaryOnCreate,
      adjustmentTotals, selStatusApproved]

/-- The update patch that approves an adjustment. -/
def patchApprove : UpdateAdjustmentPatch :=
  { type := none, amount := none, description := none, approved := some true,
    approvedBy := none }

/-- C6 (amended): on a record whose stored totals are consistent with its
adjustments and whose adjustments' status column agrees with the approved
flag, a successful createAdjustment with approved = false leaves allowances,
deductions, and netSalary unchanged; subsequently approving that adjustment
via updateAdjustment changes netSalary by +amount (additive type) or -amount
(subtractive type) — a real change whenever amount ≠ 0. -/
theorem claim_C6_unapproved_then_approved (db : DB) (pid : Nat) (p : Payroll)
    (input : CreateAdjustmentInput) (ty : String) (t : AdjustmentType) (q : Rat)
    (hpid : input.payrollId = some pid) (hpid0 : pid ≠ 0)
    (hty : input.type = some ty) (htyne : ty ≠ "")
    (hparse : parseAdjustmentType ty = some t)
    (hamt : input.amount = some q)
    (happr : input.approved = some false)
    (hfind : db.payrolls.find? (fun x => x.id == pid) = some p)
    (hfresh : ∀ a ∈ db.adjustments, (a.id == db.nextAdjustmentId) = false)
    (hco : ∀ a ∈ db.adjustments,
      (a.status == "APPROVED") = (a.approved && a.deletedAt == none))
    (hlive : ∀ a ∈ db.adjustments, a.deletedAt = none)
    (hallow : p.allowances = approvedAdditionsSum pid db.adjustments)
    (hded : p.deductions = approvedDeductionsSum pid db.adjustments)
    (hnet : p.netSalary = p.baseSalary + p.allowances - p.tax - p.deductions) :
    (∃ p₁, (createAdjustmentRoute false db input).2.payrolls.find?
        (fun x => x.id == pid) = some p₁ ∧
      p₁.allowances = p.allowances ∧ p₁.deductions = p.deductions ∧
      p₁.netSalary = p.netSalary) ∧
    (∃ p₂, (updateAdjustmentRoute (createAdjustmentRoute false db input).2
        db.nextAdjustmentId patchApprove).2.payrolls.find?
          (fun x => x.id == pid) = some p₂ ∧
      p₂.netSalary =
        (if specAdditiveType t then p.netSalary + q else p.netSalary - q) ∧
      (q ≠ 0 → p₂.netSalary ≠ p.netSalary)) := by
  have hc : (pid == 0 || ty == "") = false := by simp [hpid0, htyne]
  have hres1 : createAdjustmentRoute false db input =
      (.ok (newAdjustment db input pid t q),
        recalculatePayrollNetSalaryOnCreate
          (dbAfterCreate db (newAdjustment db input pid t q)) pid) := by
    simp only [createAdjustmentRoute, hpid, hty, hamt, hc, hparse, hfind]
    rfl
  have ha₀st : (newAdjustment db input pid t q).status = "PENDING" := rfl
  have hfilter1 :
      (dbAfterCreate db (newAdjustment db input pid t q)).adjustments.filter
          (selStatusApproved pid) =
        db.adjustments.filter (selApprovedLive pid) := by
    show ((db.adjustments ++ [newAdjustment db input pid t q]).filter
      (selStatusApproved pid)) = _
    rw [List.filter_append,
      filter_statusApproved_eq_filter_approvedLive pid db.adjustments
        (fun a ha _ => hco a ha)]
    simp [selStatusApproved, newAdjustment]
  have hsum1 : additiveSum (db.adjustments.filter (selApprovedLive pid)) =
      p.allowances := by
    rw [additiveSum_selApprovedLive pid db.adjustments (fun a ha _ => hlive a ha)]
    exact hallow.symm
  have hsum2 : subtractiveSum (db.adjustments.filter (selApprovedLive pid)) =
      p.deductions := by
    rw [subtractiveSum_selApprovedLive pid db.adjustments (fun a ha _ => hlive a ha)]
    exact hded.symm
  have hfindp1 : (dbAfterCreate db (newAdjustment db input pid t q)).payrolls.find?
      (fun x => x.id == pid) = some p := hfind
  have hp1 := recalcOnCreate_find?_eq
    (dbAfterCreate db (newAdjustment db input pid t q)) pid p hfindp1
  rw [hfilter1, hsum1, hsum2] at hp1
  -- the record written by the create-path recalculation equals p itself
  have hp1' : (recalculatePayrollNetSalaryOnCreate
      (dbAfterCreate db (newAdjustment db input pid t q)) pid).payrolls.find?
        (fun x => x.id == pid) =
      some { p with
        netSalary := p.baseSalary + p.allowances - p.tax - p.deductions,
        allowances := p.allowances, deductions := p.deductions } := hp1
  constructor
  · refine ⟨{ p with
      netSalary := p.baseSalary + p.allowances - p.tax - p.deductions,
      allowances := p.allowances, deductions := p.deductions }, ?_, rfl, rfl,
      hnet.symm⟩
    rw [hres1]
    exact hp1'
  -- second phase: approve the new adjustment
  have hadj2 : (recalculatePayrollNetSalaryOnCreate
      (dbAfterCreate db (newAdjustment db input pid t q)) pid).adjustments =
        db.adjustments ++ [newAdjustment db input pid t q] :=
    (recalcOnCreate_frame _ pid).1
  have hfinda : (recalculatePayrollNetSalaryOnCreate
      (dbAfterCreate db (newAdjustment db input pid t q)) pid).adjustments.find?
        (fun a => a.id == db.nextAdjustmentId) =
      some (newAdjustment db input pid t q) := by
    rw [hadj2, find?_append_right _ _ _ hfresh]
    simp [newAdjustment]
  have htyc : ¬((patchApprove.type.getD "" != "" &&
      parseAdjustmentType (patchApprove.type.getD "") == none) = true) := by
    simp [patchApprove]
  have hcond : (patchApprove.amount != none || patchApprove.approved != none)
      = true := by
    simp [patchApprove]
  have ha₁ : applyAdjustmentPatch patchApprove (newAdjustment db input pid t q) =
      { newAdjustment db input pid t q with approved := true } := by
    simp [applyAdjustmentPatch, patchApprove]
  have hres2 : updateAdjustmentRoute (createAdjustmentRoute false db input).2
      db.nextAdjustmentId patchApprove =
      (.ok (applyAdjustmentPatch patchApprove (newAdjustment db input pid t q)),
        recalculatePayrollNetSalary
          { (createAdjustmentRoute false db input).2 with
            adjustments :=
              (createAdjustmentRoute false db input).2.adjustments.map fun a =>
                if a.id == db.nextAdjustmentId then
                  applyAdjustmentPatch patchApprove a
                else a }
          (newAdjustment db input pid t q).payrollId) := by
    rw [hres1]
    simp only [updateAdjustmentRoute, hfinda]
    rw [if_neg htyc]
    simp only [hcond, if_true]
  have hmap2 : (createAdjustmentRoute false db input).2.adjustments.map
      (fun a => if a.id == db.nextAdjustmentId then
        applyAdjustmentPatch patchApprove a else a) =
      db.adjustments ++ [{ newAdjustment db input pid t q with approved := true }] := by
    rw [hres1]
    show (recalculatePayrollNetSalaryOnCreate _ pid).adjustments.map _ = _
    rw [hadj2, List.map_append]
    congr 1
    · conv_rhs => rw [← List.map_id db.adjustments]
      apply List.map_congr_left
      intro a ha
      simp [hfresh a ha]
    · simp [applyAdjustmentPatch, patchApprove]
      intro h
      exact absurd rfl h
  have hfindp2 : ({ (createAdjustmentRoute false db input).2 with
      adjustments :=
        (createAdjustmentRoute false db input).2.adjustments.map fun a =>
          if a.id == db.nextAdjustmentId then
            applyAdjustmentPatch patchApprove a
          else a } : DB).payrolls.find? (fun x => x.id == pid) =
      some { p with
        netSalary := p.baseSalary + p.allowances - p.tax - p.deductions,
        allowances := p.allowances, deductions := p.deductions } := by
    show (createAdjustmentRoute false db input).2.payrolls.find? _ = _
    rw [hres1]
    exact hp1'
  have hfilter2 : ({ (createAdjustmentRoute false db input).2 with
      adjustments :=
        (createAdjustmentRoute false db input).2.adjustments.map fun a =>
          if a.id == db.nextAdjustmentId then
            applyAdjustmentPatch patchApprove a
          else a } : DB).adjustments.filter (selApprovedLive pid) =
      db.adjustments.filter (selApprovedLive pid) ++
        [{ newAdjustment db input pid t q with approved := true }] := by
    show ((createAdjustmentRoute false db input).2.adjustments.map _).filter _ = _
    rw [hmap2, List.filter_append]
    congr 1
    simp [selApprovedLive, newAdjustment]
  have hp2 := recalc_find?_eq
    ({ (createAdjustmentRoute false db input).2 with
      adjustments :=
        (createAdjustmentRoute false db input).2.adjustments.map fun a =>
          if a.id == db.nextAdjustmentId then
            applyAdjustmentPatch patchApprove a
          else a } : DB) pid _ hfindp2
  rw [hfilter2, additiveSum_append, subtractiveSum_append,
    additiveSum_singleton, subtractiveSum_singleton, hsum1, hsum2] at hp2
  set R : Payroll :=
    { p with
      netSalary := p.baseSalary
        + (p.allowances + (if specAdditiveType t then q else 0))
        - p.tax
        - (p.deductions + (if specAdditiveType t then 0 else q)),
      allowances := p.allowances + (if specAdditiveType t then q else 0),
      deductions := p.deductions + (if specAdditiveType t then 0 else q) }
    with hR
  have hfind2 : (updateAdjustmentRoute (createAdjustmentRoute false db input).2
      db.nextAdjustmentId patchApprove).2.payrolls.find?
        (fun x => x.id == pid) = some R := by
    rw [hres2]
    exact hp2
  have hval : R.netSalary =
      (if specAdditiveType t then p.netSalary + q else p.netSalary - q) := by
    rw [hR]
    cases hb : specAdditiveType t
    · simp [hb]
      rw [hnet]
      ring
    · simp [hb]
      rw [hnet]
      ring
  refine ⟨R, hfind2, hval, ?_⟩
  intro hq hcontr
  rw [hval] at hcontr
  cases hb : specAdditiveType t
  · rw [hb, if_neg (by simp)] at hcontr
    exact hq (by linarith)
  · rw [hb, if_pos rfl] at hcontr
    exact hq (by linarith)

/-- Consistent concrete state for the C6 witness. -/
def pC6w : Payroll :=
  { id := 1, employeeId := 1, baseSalary := 900, allowances := 0, bonuses := 0,
    deductions := 0, tax := 0, netSalary := 900, status := .DRAFT, notes := none }

def dbC6w : DB := { payrolls := [pC6w], adjustments := [], nextAdjustmentId := 1 }

def inC6w : CreateAdjustmentInput :=
  { payrollId := some 1, type := some "BONUS", amount := some 50,
    description := none, approved := some false, approvedBy := none }

theorem claim_C6_witness :
    (∃ p₁, (createAdjustmentRoute false dbC6w inC6w).2.payrolls.find?
        (fun x => x.id == 1) = some p₁ ∧
      p₁.allowances = pC6w.allowances ∧ p₁.deductions = pC6w.deductions ∧
      p₁.netSalary = pC6w.netSalary) ∧
    (∃ p₂, (updateAdjustmentRoute (createAdjustmentRoute false dbC6w inC6w).2
        dbC6w.nextAdjustmentId patchApprove).2.payrolls.find?
          (fun x => x.id == 1) = some p₂ ∧
      p₂.netSalary = (if specAdditiveType .BONUS then pC6w.netSalary + 50
        else pC6w.netSalary - 50) ∧
      ((50 : Rat) ≠ 0 → p₂.netSalary ≠ pC6w.netSalary)) :=
  claim_C6_unapproved_then_approved dbC6w 1 pC6w inC6w "BONUS" .BONUS 50
    rfl (by decide) rfl (by decide) rfl rfl rfl rfl (by decide) (by decide)
    (by decide) (by simp [pC6w, dbC6w, approvedAdditionsSum])
    (by simp [pC6w, dbC6w, approvedDeductionsSum]) (by simp [pC6w])

/-- Concrete state for the C10 counterexample: one adjustment with
approved = true and deletedAt null but status "PENDING" — exactly what the
POST route itself produces for `approved: true` requests, since it never
writes the status column. -/
def pC10 : Payroll :=
  { id := 1, employeeId := 1, baseSalary := 1000, allowances := 0, bonuses := 0,
    deductions := 0, tax := 0, netSalary := 1000, status := .DRAFT, notes := none }

def aC10 : PayrollAdjustment :=
  { id := 1, payrollId := 1, type := .BONUS, description := none, amount := 100,
    approved := true, approvedBy := none, status := "PENDING", deletedAt := none }

def dbC10 : DB := { payrolls := [pC10], adjustments := [aC10], nextAdjustmentId := 2 }

/-- C10 counterexample: on an adjustment with approved = true but status
"PENDING", the create-route recalculation (status = "APPROVED" selection)
writes allowances 0 while the update/delete-route recalculation
(approved flag selection) writes allowances 100 — the two implementations
disagree. -/
theorem claim_C10_counterexample :
    ((recalculatePayrollNetSalaryOnCreate dbC10 1).payrolls.map fun p =>
      p.allowances) = [0] ∧
    ((recalculatePayrollNetSalary dbC10 1).payrolls.map fun p =>
      p.allowances) = [100] ∧
    (0 : Rat) ≠ 100 := by
  refine ⟨?_, ?_, by norm_num⟩ <;>
    simp +decide [recalculatePayrollNetSalaryOnCreate, recalculatePayrollNetSalary,
      dbC10, pC10, aC10, adjustmentTotals, selStatusApproved, selApprovedLive]

/-- C10 (amended): the two recalculation implementations agree exactly on
stores where, for every adjustment of the payroll, the status column equals
"APPROVED" precisely when the approved flag is set and the row is not
soft-deleted (and payroll ids are unique, as the primary key guarantees); in
general — e.g. for rows the create route itself persists with approved = true
and default status "PENDING" — they differ. -/
theorem claim_C10_equal_under_status_flag_agreement (db : DB) (pid : Nat)
    (hnodup : (db.payrolls.map fun p => p.id).Nodup)
    (hco : ∀ a ∈ db.adjustments, a.payrollId = pid →
      (a.status == "APPROVED") = (a.approved && a.deletedAt == none)) :
    recalculatePayrollNetSalaryOnCreate db pid =
      recalculatePayrollNetSalary db pid := by
  have hfilter := filter_statusApproved_eq_filter_approvedLive pid db.adjustments hco
  cases hf : db.payrolls.find? (fun x => x.id == pid) with
  | none =>
    have hnone : ∀ x ∈ db.payrolls, (x.id == pid) = false := by
      intro x hx
      simpa using List.find?_eq_none.mp hf x hx
    have h1 : recalculatePayrollNetSalaryOnCreate db pid = db := by
      simp [recalculatePayrollNetSalaryOnCreate, hf]
    rw [h1]
    have hmap : (db.payrolls.map fun p =>
        if p.id == pid then
          { p with
            netSalary := p.baseSalary
              + (adjustmentTotals (db.adjustments.filter (selApprovedLive pid))).additions
              - p.tax
              - (adjustmentTotals (db.adjustments.filter (selApprovedLive pid))).deductions,
            allowances := (adjustmentTotals (db.adjustments.filter (selApprovedLive pid))).additions,
            deductions := (adjustmentTotals (db.adjustments.filter (selApprovedLive pid))).deductions }
        else p) = db.payrolls := by
      conv_rhs => rw [← List.map_id db.payrolls]
      apply List.map_congr_left
      intro x hx
      simp [hnone x hx]
    simp only [recalculatePayrollNetSalary, hmap]
  | some p0 =>
    have hp0mem : p0 ∈ db.payrolls := List.mem_of_find?_eq_some hf
    have hp0id : (p0.id == pid) = true := by simpa using List.find?_some hf
    simp only [recalculatePayrollNetSalaryOnCreate, recalculatePayrollNetSalary,
      hf, hfilter]
    congr 1
    apply List.map_congr_left
    intro x hx
    by_cases hxid : (x.id == pid) = true
    · have hxeq : x = p0 := by
        apply List.inj_on_of_nodup_map hnodup hx hp0mem
        have h1 : x.id = pid := by simpa using hxid
        have h2 : p0.id = pid := by simpa using hp0id
        rw [h1, h2]
      subst hxeq
      simp [hxid]
    · simp [hxid]

/-- Concrete coherent state for the C10 witness. -/
def aC10w : PayrollAdjustment :=
  { id := 1, payrollId := 1, type := .OVERTIME, description := none, amount := 80,
    approved := true, approvedBy := none, status := "APPROVED", deletedAt := none }

def dbC10w : DB :=
  { payrolls := [pC10], adjustments := [aC10w], nextAdjustmentId := 2 }

theorem claim_C10_witness :
    recalculatePayrollNetSalaryOnCreate dbC10w 1 =
      recalculatePayrollNetSalary dbC10w 1 :=
  claim_C10_equal_under_status_flag_agreement dbC10w 1 (by decide) (by decide)

end EMS
